import Mathlib

/-!
Verification of the MCP client infrastructure of the WhatsApp-Analyzer
repository, as a shallow embedding in Lean.

The embedding covers:

* `mcp_client.py` — `MCPClient.execute_tool` (connect-on-demand, bounded
  retries with exponential backoff, reconnect on connection-class failures),
  `MCPClient.list_tools`, and `MCPClient._close_connection` together with the
  success path of `MCPClient.connect`.
* `mcp_stdio_client.py` — `MCPStdioClient`: the initialization handshake,
  `call_tool`, `list_tools` and `_next_id`.
* `whatsapp_mcp_client.py` — `WhatsAppMCPClient._enforce_rate_limit`, the
  sliding-window rate limiter.

Modelling conventions:

* Wall-clock timestamps, delays and slept durations (Python floats) are
  modelled as exact integers (`ℤ`).  The arithmetic performed by the code
  (`now - ts < 60`, `60 - (now - ts)`, `retry_delay * (2 ** attempt)`) is
  carried over verbatim; no property considered here depends on fractional
  clock values.
* `await asyncio.sleep(d)` is modelled by recording the slept duration `d`
  in the returned trace.
* The network / subprocess side is modelled by oracles: an attempt oracle
  mapping the attempt index to the outcome of
  `MCPClient._execute_tool_request`, a boolean result for
  `MCPClient.connect` (for a configured server of a supported connection
  type, `connect` returns a boolean: the per-transport helpers
  `_connect_sse` / `_connect_websocket` / `_connect_stdio` catch their own
  exceptions and return `False`), and the decoded next stdout line for the
  stdio clients.
* A JSON-RPC response line is modelled by `Envelope`; its `result` member is
  modelled by `RpcPayload`, which keeps the one field the code inspects (the
  `"tools"` list) plus an opaque remainder.
-/

/-- Result payload of a JSON-RPC response (`response.get("result", {})`).
`tools` models the optional `"tools"` member that `list_tools` extracts;
`data` stands for the rest of the (otherwise uninterpreted) object. -/
structure RpcPayload where
  tools : Option (List String) := none
  data : String := ""
deriving DecidableEq

/-- A decoded JSON-RPC envelope as read from a server: optional integer
`id` (absent on notifications), optional `error` member, and the `result`
payload (defaulting to the empty object, as in `response.get("result", {})`). -/
structure Envelope where
  id : Option Int := none
  error : Option String := none
  result : RpcPayload := {}
deriving DecidableEq

/-- `MCPConnectionType` of `mcp_client.py`. -/
inductive MCPConnectionType where
  | stdio
  | sse
  | websocket
deriving DecidableEq

/-- `MCPServerConfig` of `mcp_client.py`, with its default values.
`retry_delay` (a float, default `1.0`) is modelled as an integer. -/
structure MCPServerConfig where
  name : String
  connection_type : MCPConnectionType
  endpoint : String
  auth_token : Option String := none
  timeout : Nat := 30
  max_retries : Nat := 3
  retry_delay : ℤ := 1
  health_check_interval : Nat := 60
  session_timeout : Nat := 3600
deriving DecidableEq

/-- Classification of the exception raised by a failed
`_execute_tool_request` attempt: `connectionError` models
`MCPConnectionError` (the class tested by `isinstance(e, MCPConnectionError)`
in the retry loop), `toolErr` models `MCPToolError`, and `otherErr` any
other `Exception`. -/
inductive ExcClass where
  | connectionError
  | toolErr
  | otherErr
deriving DecidableEq

/-- An exception value: its class and its message. -/
structure Exc where
  cls : ExcClass
  msg : String
deriving DecidableEq

/-- Outcome of one `_execute_tool_request` attempt. -/
inductive AttemptOutcome where
  | success (v : RpcPayload)
  | failure (e : Exc)
deriving DecidableEq

/-- `true` exactly when the attempt failed with `MCPConnectionError`
(`isinstance(e, MCPConnectionError)` in `execute_tool`). -/
def isConnFailure : AttemptOutcome → Bool
  | .success _ => false
  | .failure e => decide (e.cls = ExcClass.connectionError)

/-- Final outcome of `MCPClient.execute_tool`:
`ok v` — the tool result is returned;
`toolError n last` — `MCPToolError(f"Tool execution failed after
{n} attempts: {last}")` is raised (so the error states the attempt count
`n` and wraps the last underlying exception `last`, `none` standing for
Python's `None` when no attempt ever ran);
`connError msg` — `MCPConnectionError` is raised;
`keyError` — the `self.servers[server_name]` lookup raises `KeyError`. -/
inductive ExecOutcome where
  | ok (v : RpcPayload)
  | toolError (attempts : Nat) (last : Option Exc)
  | connError (msg : String)
  | keyError
deriving DecidableEq

/-- Observable trace of one `execute_tool` call: how many request attempts
were issued, the durations passed to `asyncio.sleep` between attempts (in
order), the indices of the attempts after which a reconnect
(`self.connect`) was triggered, and the final outcome. -/
structure ExecTrace where
  attemptsMade : Nat
  sleeps : List ℤ
  reconnects : List Nat
  outcome : ExecOutcome
deriving DecidableEq

/-- The `for attempt in range(config.max_retries)` loop of
`MCPClient.execute_tool` (`mcp_client.py`, lines 209-232).  `attempts i` is
the outcome of the `(i+1)`-th `_execute_tool_request`; `fuel` is the number
of loop iterations still to run and `i` the current value of `attempt`; the
loop is entered with `fuel = max_retries`, `i = 0`, `last = none`.  On
failure the code sleeps `retry_delay * (2 ** attempt)` and, exactly when the
exception is an `MCPConnectionError`, triggers `self.connect` — whose return
value is ignored — but only while `attempt < max_retries - 1`.  When the
loop runs out, `MCPToolError` is raised with the attempt count and the last
exception. -/
def retry_loop (attempts : Nat → AttemptOutcome) (max_retries : Nat)
    (retry_delay : ℤ) : Nat → Nat → Option Exc → ExecTrace
  | 0, _, last => ⟨0, [], [], .toolError max_retries last⟩
  | fuel + 1, i, _ =>
    match attempts i with
    | .success v => ⟨1, [], [], .ok v⟩
    | .failure e =>
      let rest := retry_loop attempts max_retries retry_delay fuel (i + 1) (some e)
      if i < max_retries - 1 then
        ⟨rest.attemptsMade + 1,
         retry_delay * 2 ^ i :: rest.sleeps,
         (if e.cls = ExcClass.connectionError then i :: rest.reconnects
          else rest.reconnects),
         rest.outcome⟩
      else
        ⟨rest.attemptsMade + 1, rest.sleeps, rest.reconnects, rest.outcome⟩

/-- `MCPClient.execute_tool` (`mcp_client.py`, lines 178-232).
`configured` models `server_name in self.servers`, `connected` models
`server_name in self.connections`, and `connect_ok` is the boolean returned
by `self.connect` when the method has to connect on demand.  When the server
is not connected: a non-configured name makes `connect` raise
`MCPConnectionError(f"Server '{server_name}' not configured")`; a failed
connect raises `MCPConnectionError(f"Cannot connect to server: ...")`;
otherwise the retry loop runs.  When connected but not configured, the
`self.servers[server_name]` lookup raises `KeyError`. -/
def execute_tool (cfg : MCPServerConfig) (configured connected connect_ok : Bool)
    (attempts : Nat → AttemptOutcome) : ExecTrace :=
  if connected = false then
    if configured = false then
      ⟨0, [], [], .connError ("Server not configured")⟩
    else if connect_ok = false then
      ⟨0, [], [], .connError ("Cannot connect to server")⟩
    else
      retry_loop attempts cfg.max_retries cfg.retry_delay cfg.max_retries 0 none
  else
    if configured = false then ⟨0, [], [], .keyError⟩
    else
      retry_loop attempts cfg.max_retries cfg.retry_delay cfg.max_retries 0 none

/-- `MCPClient.list_tools` (`mcp_client.py`, lines 234-241): runs
`execute_tool(server_name, "list_tools", {})`; any exception is caught and
the empty list is returned; on success the `"tools"` member of the result is
returned, defaulting to the empty list. -/
def list_tools (cfg : MCPServerConfig) (configured connected connect_ok : Bool)
    (attempts : Nat → AttemptOutcome) : List String :=
  match (execute_tool cfg configured connected connect_ok attempts).outcome with
  | .ok v => v.tools.getD []
  | _ => []

/-- What the code reads from the server process's stdout in
`MCPClient._execute_stdio_request`: a timeout of the `readline`, a line that
`json.loads` cannot decode, or a decoded envelope. -/
inductive StdioRead where
  | timeout
  | badLine
  | env (e : Envelope)
deriving DecidableEq

/-- Outcome of `MCPClient._execute_stdio_request`:
`ok r` — the `"result"` member is returned; `toolError msg` —
`MCPToolError` is raised; `raisedJsonError` — the `json.loads` exception
propagates (only `asyncio.TimeoutError` is caught). -/
inductive StdioReqOutcome where
  | ok (r : RpcPayload)
  | toolError (msg : String)
  | raisedJsonError
deriving DecidableEq

/-- `MCPClient._execute_stdio_request` (`mcp_client.py`, lines 439-468):
writes the request (whose `id` is a fresh `uuid4` string), reads a single
response line, and — without comparing the response's id to the request's
id — raises `MCPToolError` if the response carries an `"error"` member and
otherwise returns its `"result"` member. -/
def execute_stdio_request (_request_id : String) (read : StdioRead) :
    StdioReqOutcome :=
  match read with
  | .timeout => .toolError ("Tool execution timed out")
  | .badLine => .raisedJsonError
  | .env e =>
    match e.error with
    | some msg => .toolError msg
    | none => .ok e.result

/-- The mutable state of an `MCPStdioClient` (`mcp_stdio_client.py`):
`ready` models the `self.initialized` flag (set to `True` only after the
handshake response was received without error and the
`notifications/initialized` notification was sent) and `request_id` the id
counter, which starts at `0`. -/
structure MCPStdioClient where
  ready : Bool := false
  request_id : Nat := 0
deriving DecidableEq

/-- `MCPStdioClient._next_id` (`mcp_stdio_client.py`, lines 190-193):
increments the counter and returns its new value. -/
def next_id (c : MCPStdioClient) : Nat × MCPStdioClient :=
  (c.request_id + 1, { c with request_id := c.request_id + 1 })

/-- The ids handed out by `n` successive `_next_id` calls starting from
state `c`. -/
def assigned_ids (c : MCPStdioClient) : Nat → List Nat
  | 0 => []
  | n + 1 => (next_id c).1 :: assigned_ids (next_id c).2 n

/-- The fresh client state built by `MCPStdioClient.__init__`. -/
def stdioStart : MCPStdioClient := {}

/-- A JSON-RPC message written to the server's stdin: its `id` member
(`none` for notifications) and its `method`. -/
structure SentMsg where
  id : Option Nat
  method : String
deriving DecidableEq

/-- Outcome of `MCPStdioClient.call_tool`:
`ok r` — the `"result"` payload is returned;
`notReady` — `RuntimeError("MCP client not initialized")` is raised before
anything is sent;
`toolCallError e` — `Exception(f"Tool call error: {e}")` is raised;
`invalidResponse` — `Exception("Invalid tool call response")` is raised. -/
inductive StdioOutcome where
  | ok (r : RpcPayload)
  | notReady
  | toolCallError (e : String)
  | invalidResponse
deriving DecidableEq

/-- Trace of one `call_tool` (or handshake) interaction: outcome, the
messages written to the server, and the client state afterwards. -/
structure StdioCall where
  outcome : StdioOutcome
  sent : List SentMsg
  state : MCPStdioClient
deriving DecidableEq

/-- `MCPStdioClient.call_tool` (`mcp_stdio_client.py`, lines 113-149).
`read` is the envelope decoded from the next stdout line (`none` when
`_read_response` returns `None`: timeout, EOF or undecodable line).  Before
the handshake has completed, the call raises immediately and nothing is
sent.  Otherwise a fresh id is drawn, a single `tools/call` request is
written, and one response is read: a response whose id differs from the
request's id — or a missing response — raises
`Exception("Invalid tool call response")`; a response with an `"error"`
member raises; otherwise its `"result"` member is returned. -/
def call_tool (c : MCPStdioClient) (_tool : String) (read : Option Envelope) :
    StdioCall :=
  if c.ready = false then ⟨.notReady, [], c⟩
  else
    let rid := (next_id c).1
    let c2 := (next_id c).2
    let sent : List SentMsg := [⟨some rid, "tools/call"⟩]
    match read with
    | none => ⟨.invalidResponse, sent, c2⟩
    | some env =>
      if env.id = some (rid : Int) then
        match env.error with
        | some e => ⟨.toolCallError e, sent, c2⟩
        | none => ⟨.ok env.result, sent, c2⟩
      else ⟨.invalidResponse, sent, c2⟩

/-- Outcome of `MCPStdioClient.list_tools`, mirroring `StdioOutcome`. -/
inductive StdioListOutcome where
  | ok (tools : List String)
  | notReady
  | listToolsError (e : String)
  | invalidResponse
deriving DecidableEq

/-- Trace of one `MCPStdioClient.list_tools` interaction. -/
structure StdioListCall where
  outcome : StdioListOutcome
  sent : List SentMsg
  state : MCPStdioClient
deriving DecidableEq

/-- `MCPStdioClient.list_tools` (`mcp_stdio_client.py`, lines 151-178): same
precondition and correlation logic as `call_tool`, on a `tools/list`
request; on success it returns `response.get("result", {}).get("tools", [])`. -/
def stdio_list_tools (c : MCPStdioClient) (read : Option Envelope) :
    StdioListCall :=
  if c.ready = false then ⟨.notReady, [], c⟩
  else
    let rid := (next_id c).1
    let c2 := (next_id c).2
    let sent : List SentMsg := [⟨some rid, "tools/list"⟩]
    match read with
    | none => ⟨.invalidResponse, sent, c2⟩
    | some env =>
      if env.id = some (rid : Int) then
        match env.error with
        | some e => ⟨.listToolsError e, sent, c2⟩
        | none => ⟨.ok (env.result.tools.getD []), sent, c2⟩
      else ⟨.invalidResponse, sent, c2⟩

/-- Result of the `MCPStdioClient.initialize` handshake: the boolean the
method returns, the messages sent, and the client state afterwards. -/
structure StdioHandshake where
  ok : Bool
  sent : List SentMsg
  state : MCPStdioClient
deriving DecidableEq

/-- The `MCPStdioClient.initialize` handshake (`mcp_stdio_client.py`, lines
55-111).  A fresh id is drawn and the `initialize` request sent; if the
response's id matches and it has no `"error"` member, the
`notifications/initialized` notification (which carries no id) is sent and
the readiness flag is set; on an error member, a mismatched id or a missing
response, the method returns `False` and the flag stays clear. -/
def handshake (c : MCPStdioClient) (read : Option Envelope) : StdioHandshake :=
  let rid := (next_id c).1
  let c2 := (next_id c).2
  let initMsg : SentMsg := ⟨some rid, "initialize"⟩
  match read with
  | none => ⟨false, [initMsg], c2⟩
  | some env =>
    if env.id = some (rid : Int) then
      match env.error with
      | some _ => ⟨false, [initMsg], c2⟩
      | none =>
        ⟨true, [initMsg, ⟨none, "notifications/initialized"⟩],
         { c2 with ready := true }⟩
    else ⟨false, [initMsg], c2⟩

/-- Python `dict` lookup, over an association list with unique keys. -/
def getKey (k : String) : List (String × α) → Option α
  | [] => none
  | (k2, v) :: rest => if k2 = k then some v else getKey k rest

/-- Python `dict` assignment `d[k] = v`: replaces the entry in place if the
key is present, appends it otherwise. -/
def setKey (k : String) (v : α) : List (String × α) → List (String × α)
  | [] => [(k, v)]
  | (k2, v2) :: rest =>
    if k2 = k then (k, v) :: rest else (k2, v2) :: setKey k v rest

/-- Python `del d[k]`: removes the entry with key `k`. -/
def delKey (k : String) (l : List (String × α)) : List (String × α) :=
  l.filter (fun p => decide (p.1 ≠ k))

/-- `MCPSession` of `mcp_client.py`: the session record created on a
successful connect.  The `uuid4` session id is modelled by an abstract
token; the two `datetime` fields are dropped (no claim mentions them). -/
structure MCPSession where
  session_id : Nat
  server_name : String
  is_active : Bool := true
deriving DecidableEq

/-- The mutation `self.sessions[server_name].is_active = False`: the record
bound under key `k` gets its liveness flag cleared; every other binding is
untouched. -/
def clearSession (k : String) :
    List (String × MCPSession) → List (String × MCPSession)
  | [] => []
  | (k2, v) :: rest =>
    if k2 = k then (k2, { v with is_active := false }) :: clearSession k rest
    else (k2, v) :: clearSession k rest

/-- The connection record that `_connect_sse` / `_connect_websocket` /
`_connect_stdio` store in `self.connections`: its transport type and
endpoint; the live transport handle itself is external. -/
structure ConnInfo where
  ctype : MCPConnectionType
  endpoint : String
deriving DecidableEq

/-- The mutable dictionaries of an `MCPClient` (`mcp_client.py`,
`__init__`): server configurations, sessions, connections and the names
holding a running health-check task. -/
structure MCPClientState where
  servers : List (String × MCPServerConfig) := []
  sessions : List (String × MCPSession) := []
  connections : List (String × ConnInfo) := []
  health_tasks : List String := []
deriving DecidableEq

/-- The success branch of `MCPClient.connect` (`mcp_client.py`, lines
126-152) for a configured server `cfg`: the transport helper stored the
connection record, a fresh `MCPSession` (with `is_active = True`) is stored
under the server's name, and a health-check task is started.  `sid` stands
for the generated `uuid4` session id. -/
def connect_success (st : MCPClientState) (cfg : MCPServerConfig) (sid : Nat) :
    MCPClientState :=
  { st with
    connections := setKey cfg.name ⟨cfg.connection_type, cfg.endpoint⟩ st.connections,
    sessions := setKey cfg.name ⟨sid, cfg.name, true⟩ st.sessions,
    health_tasks :=
      if cfg.name ∈ st.health_tasks then st.health_tasks
      else st.health_tasks ++ [cfg.name] }

/-- `MCPClient._close_connection` (`mcp_client.py`, lines 470-501): cancels
and drops the health-check task, closes the transport and deletes the
connection entry, and clears the session's `is_active` flag — the session
record itself is kept.  The whole body is wrapped in
`try ... except Exception`, so the method never raises; the external
transport `close()` / `terminate()` calls are modelled as returning
normally. -/
def close_connection (st : MCPClientState) (server_name : String) :
    MCPClientState :=
  { st with
    health_tasks := st.health_tasks.filter (fun n => decide (n ≠ server_name)),
    connections := delKey server_name st.connections,
    sessions := clearSession server_name st.sessions }

/-- Unfolding step for `List.range'`. -/
theorem range'_succ_left (s n : Nat) :
    List.range' s (n + 1) = s :: List.range' (s + 1) n := rfl

/-- When every attempt fails, the retry loop runs for all of its fuel. -/
theorem retry_loop_attempts_all_fail (attempts : Nat → AttemptOutcome)
    (m : Nat) (d : ℤ) :
    ∀ (fuel i : Nat) (last : Option Exc),
      (∀ j, j < fuel → ∃ e, attempts (i + j) = .failure e) →
      (retry_loop attempts m d fuel i last).attemptsMade = fuel := by
  intro fuel
  induction fuel with
  | zero => intro i last _; rfl
  | succ n ih =>
    intro i last h
    obtain ⟨e, he⟩ := h 0 (Nat.succ_pos n)
    have he' : attempts i = .failure e := by simpa using he
    have hrest := ih (i + 1) (some e) (fun j hj => by
      have h2 := h (j + 1) (by omega)
      rwa [show i + (j + 1) = i + 1 + j by omega] at h2)
    simp only [retry_loop, he']
    split <;> simp [hrest]

/-- When every attempt fails, the slept durations follow the exponential
schedule `d * 2 ^ attempt` for every attempt except the last. -/
theorem retry_loop_sleeps_all_fail (attempts : Nat → AttemptOutcome)
    (m : Nat) (d : ℤ) :
    ∀ (fuel i : Nat) (last : Option Exc),
      (∀ j, j < fuel → ∃ e, attempts (i + j) = .failure e) →
      i + fuel = m →
      (retry_loop attempts m d fuel i last).sleeps
        = (List.range' i (fuel - 1)).map (fun j => d * 2 ^ j) := by
  intro fuel
  induction fuel with
  | zero => intro i last _ _; rfl
  | succ n ih =>
    intro i last h hm
    obtain ⟨e, he⟩ := h 0 (Nat.succ_pos n)
    have he' : attempts i = .failure e := by simpa using he
    simp only [retry_loop, he']
    by_cases hc : i < m - 1
    · rw [if_pos hc]
      have hn : 0 < n := by omega
      have hrest := ih (i + 1) (some e) (fun j hj => by
        have h2 := h (j + 1) (by omega)
        rwa [show i + (j + 1) = i + 1 + j by omega] at h2) (by omega)
      simp only [hrest]
      rw [show n + 1 - 1 = (n - 1) + 1 by omega, range'_succ_left]
      simp
    · rw [if_neg hc]
      have hn : n = 0 := by omega
      subst hn
      rfl

/-- When every attempt fails, the loop ends by raising `MCPToolError` with
the configured attempt count, wrapping the last attempt's exception. -/
theorem retry_loop_outcome_all_fail (attempts : Nat → AttemptOutcome)
    (m : Nat) (d : ℤ) :
    ∀ (fuel i : Nat) (last : Option Exc) (e : Exc),
      0 < fuel →
      (∀ j, j < fuel → ∃ e2, attempts (i + j) = .failure e2) →
      attempts (i + (fuel - 1)) = .failure e →
      (retry_loop attempts m d fuel i last).outcome = .toolError m (some e) := by
  intro fuel
  induction fuel with
  | zero => intro i last e h; omega
  | succ n ih =>
    intro i last e _ h hlast
    by_cases hn : n = 0
    · subst hn
      have he' : attempts i = .failure e := by simpa using hlast
      simp only [retry_loop, he']
      split <;> rfl
    · obtain ⟨e0, he0⟩ := h 0 (Nat.succ_pos n)
      have he0' : attempts i = .failure e0 := by simpa using he0
      have hrest := ih (i + 1) (some e0) e (by omega)
        (fun j hj => by
          have h2 := h (j + 1) (by omega)
          rwa [show i + (j + 1) = i + 1 + j by omega] at h2)
        (by rwa [show i + 1 + (n - 1) = i + (n + 1 - 1) by omega])
      simp only [retry_loop, he0']
      split <;> simpa using hrest

/-- A reconnect is recorded after attempt `j` if and only if attempt `j`
ran, failed with `MCPConnectionError`, and was not the final permitted
attempt. -/
theorem retry_loop_reconnects (attempts : Nat → AttemptOutcome)
    (m : Nat) (d : ℤ) :
    ∀ (fuel i : Nat) (last : Option Exc),
      (retry_loop attempts m d fuel i last).reconnects
        = (List.range' i (retry_loop attempts m d fuel i last).attemptsMade).filter
            (fun j => decide (j < m - 1) && isConnFailure (attempts j)) := by
  intro fuel
  induction fuel with
  | zero => intro i last; rfl
  | succ n ih =>
    intro i last
    cases hat : attempts i with
    | success v =>
      simp only [retry_loop, hat]
      simp [range'_succ_left, isConnFailure, hat]
    | failure e =>
      simp only [retry_loop, hat]
      by_cases hc : i < m - 1
      · rw [if_pos hc]
        have hrest := ih (i + 1) (some e)
        simp only [range'_succ_left, List.filter_cons]
        rw [hrest]
        by_cases hcls : e.cls = ExcClass.connectionError
        · simp [hc, hcls, isConnFailure, hat]
        · simp [hc, hcls, isConnFailure, hat]
      · rw [if_neg hc]
        have hrest := ih (i + 1) (some e)
        simp only [range'_succ_left, List.filter_cons]
        rw [hrest]
        simp [hc, isConnFailure, hat]

/-- If the first `k` attempts fail with connection errors (all of them
strictly before the final permitted attempt) and attempt `k` succeeds, the
loop returns the success value after `k + 1` attempts, with exactly one
recorded reconnect after each of the `k` failed attempts. -/
theorem retry_loop_scenario (attempts : Nat → AttemptOutcome)
    (m : Nat) (d : ℤ) :
    ∀ (k fuel i : Nat) (last : Option Exc) (v : RpcPayload),
      k < fuel →
      (∀ j, j < k → ∃ e, attempts (i + j) = .failure e ∧
        e.cls = ExcClass.connectionError) →
      attempts (i + k) = .success v →
      (∀ j, j < k → i + j < m - 1) →
      retry_loop attempts m d fuel i last
        = ⟨k + 1, (List.range' i k).map (fun j => d * 2 ^ j),
           List.range' i k, .ok v⟩ := by
  intro k
  induction k with
  | zero =>
    intro fuel i last v hk h hsucc hlt
    obtain ⟨f, rfl⟩ : ∃ f, fuel = f + 1 := ⟨fuel - 1, by omega⟩
    have hs : attempts i = .success v := by simpa using hsucc
    simp [retry_loop, hs]
  | succ kk ih =>
    intro fuel i last v hk h hsucc hlt
    obtain ⟨f, rfl⟩ : ∃ f, fuel = f + 1 := ⟨fuel - 1, by omega⟩
    obtain ⟨e, he, hecls⟩ := h 0 (Nat.succ_pos kk)
    have he' : attempts i = .failure e := by simpa using he
    have hc : i < m - 1 := by simpa using hlt 0 (Nat.succ_pos kk)
    simp only [retry_loop, he']
    rw [if_pos hc]
    have hrest := ih f (i + 1) (some e) v (by omega)
      (fun j hj => by
        have h2 := h (j + 1) (by omega)
        rwa [show i + (j + 1) = i + 1 + j by omega] at h2)
      (by rwa [show i + 1 + kk = i + (kk + 1) by omega])
      (fun j hj => by
        have h2 := hlt (j + 1) (by omega)
        omega)
    rw [hrest]
    simp [hecls, range'_succ_left]

/-- The retry loop itself never raises `MCPConnectionError`: its outcome is
a success value or an `MCPToolError`. -/
theorem retry_loop_not_connError (attempts : Nat → AttemptOutcome)
    (m : Nat) (d : ℤ) :
    ∀ (fuel i : Nat) (last : Option Exc) (msg : String),
      (retry_loop attempts m d fuel i last).outcome ≠ .connError msg := by
  intro fuel
  induction fuel with
  | zero => intro i last msg; simp [retry_loop]
  | succ n ih =>
    intro i last msg
    cases hat : attempts i with
    | success v => simp [retry_loop, hat]
    | failure e =>
      simp only [retry_loop, hat]
      split <;> simpa using ih (i + 1) (some e) msg

/-- When every attempt fails, the loop never returns a success value. -/
theorem retry_loop_not_ok_all_fail (attempts : Nat → AttemptOutcome)
    (m : Nat) (d : ℤ) :
    ∀ (fuel i : Nat) (last : Option Exc) (v : RpcPayload),
      (∀ j, j < fuel → ∃ e, attempts (i + j) = .failure e) →
      (retry_loop attempts m d fuel i last).outcome ≠ .ok v := by
  intro fuel
  induction fuel with
  | zero => intro i last v _; simp [retry_loop]
  | succ n ih =>
    intro i last v h
    obtain ⟨e, he⟩ := h 0 (Nat.succ_pos n)
    have he' : attempts i = .failure e := by simpa using he
    simp only [retry_loop, he']
    have hrest := ih (i + 1) (some e) v (fun j hj => by
      have h2 := h (j + 1) (by omega)
      rwa [show i + (j + 1) = i + 1 + j by omega] at h2)
    split <;> simpa using hrest

/-- For a configured server that is connected, or connects successfully on
demand, `execute_tool` runs the retry loop. -/
theorem execute_tool_runs_loop (cfg : MCPServerConfig)
    (connected connect_ok : Bool) (attempts : Nat → AttemptOutcome)
    (hpath : connected = true ∨ connect_ok = true) :
    execute_tool cfg true connected connect_ok attempts
      = retry_loop attempts cfg.max_retries cfg.retry_delay cfg.max_retries 0 none := by
  rcases hpath with h | h
  · subst h; simp [execute_tool]
  · subst h; cases connected <;> simp [execute_tool]

/-- Test fixture: a configured server with the default retry settings
(`max_retries = 3`, `retry_delay = 1`). -/
def cfgW : MCPServerConfig :=
  { name := "whatsapp", connection_type := .sse, endpoint := "http://localhost" }

/-- Test fixture: a connection-class failure. -/
def eConnW : Exc := ⟨.connectionError, "connection refused"⟩

/-- Test fixture: a tool-level failure. -/
def eToolW : Exc := ⟨.toolErr, "tool failed"⟩

/-- Test fixture: the first two attempts fail with connection errors, the
third succeeds. -/
def attW2 : Nat → AttemptOutcome :=
  fun i => if i < 2 then .failure eConnW else .success {}

/-- Test fixture: every attempt succeeds with a one-tool listing. -/
def attSuccW : Nat → AttemptOutcome :=
  fun _ => .success { tools := some ["list_chats"] }

/-- C1: for a configured server, when every attempt of a tool call fails,
`execute_tool` makes exactly `max_retries` attempts, sleeps
`retry_delay * 2 ^ (attempt - 1)` between consecutive attempts (attempts
numbered from 1: the list of slept durations is
`[retry_delay * 2 ^ 0, …, retry_delay * 2 ^ (max_retries - 2)]`), and then
raises an `MCPToolError` that wraps the last underlying exception and
states the attempt count. -/
theorem execute_tool_retry_exhaustion (cfg : MCPServerConfig)
    (connected connect_ok : Bool) (attempts : Nat → AttemptOutcome) (e : Exc)
    (hpath : connected = true ∨ connect_ok = true)
    (hm : 0 < cfg.max_retries)
    (hfail : ∀ j, j < cfg.max_retries → ∃ e2, attempts j = .failure e2)
    (hlast : attempts (cfg.max_retries - 1) = .failure e) :
    (execute_tool cfg true connected connect_ok attempts).attemptsMade
      = cfg.max_retries ∧
    (execute_tool cfg true connected connect_ok attempts).sleeps
      = (List.range (cfg.max_retries - 1)).map (fun j => cfg.retry_delay * 2 ^ j) ∧
    (execute_tool cfg true connected connect_ok attempts).outcome
      = .toolError cfg.max_retries (some e) := by
  rw [execute_tool_runs_loop cfg connected connect_ok attempts hpath]
  have hfail0 : ∀ j, j < cfg.max_retries → ∃ e2, attempts (0 + j) = .failure e2 :=
    fun j hj => by simpa using hfail j hj
  refine ⟨?_, ?_, ?_⟩
  · exact retry_loop_attempts_all_fail attempts cfg.max_retries cfg.retry_delay
      cfg.max_retries 0 none hfail0
  · rw [retry_loop_sleeps_all_fail attempts cfg.max_retries cfg.retry_delay
      cfg.max_retries 0 none hfail0 (by omega)]
    rw [List.range_eq_range' (cfg.max_retries - 1)]
  · exact retry_loop_outcome_all_fail attempts cfg.max_retries cfg.retry_delay
      cfg.max_retries 0 none e hm hfail0 (by simpa using hlast)

/-- Witness for C1: a server with `max_retries = 3`, `retry_delay = 1` and
three connection-errored attempts makes 3 attempts, sleeps `[1, 2]` and
raises `MCPToolError` wrapping the last failure with attempt count 3. -/
theorem execute_tool_retry_exhaustion_witness :
    (execute_tool cfgW true true true (fun _ => .failure eConnW)).attemptsMade = 3 ∧
    (execute_tool cfgW true true true (fun _ => .failure eConnW)).sleeps = [1, 2] ∧
    (execute_tool cfgW true true true (fun _ => .failure eConnW)).outcome
      = .toolError 3 (some eConnW) := by
  have h := execute_tool_retry_exhaustion cfgW true true
    (fun _ => .failure eConnW) eConnW (Or.inl rfl) (by decide)
    (fun j _ => ⟨eConnW, rfl⟩) rfl
  exact ⟨h.1, by rw [h.2.1]; decide, h.2.2⟩

/-- C2: in the retry loop, a reconnect is triggered after an attempt if and
only if that attempt failed with a connection-class failure
(`MCPConnectionError`) and another attempt was still permitted — never for
tool-level errors; in particular, when the first `k < max_retries` attempts
fail with connection errors and attempt `k + 1` succeeds, the call succeeds
and exactly `k` reconnects (one after each failed attempt) were
performed. -/
theorem execute_tool_reconnect_policy (cfg : MCPServerConfig)
    (attempts : Nat → AttemptOutcome) (k : Nat) (v : RpcPayload)
    (hk : k < cfg.max_retries)
    (hfail : ∀ j, j < k → ∃ e, attempts j = .failure e ∧
      e.cls = ExcClass.connectionError)
    (hsucc : attempts k = .success v) :
    (∀ (attempts2 : Nat → AttemptOutcome) (connected connect_ok : Bool),
      connected = true ∨ connect_ok = true →
      (execute_tool cfg true connected connect_ok attempts2).reconnects
        = (List.range
            (execute_tool cfg true connected connect_ok attempts2).attemptsMade).filter
            (fun j => decide (j < cfg.max_retries - 1) && isConnFailure (attempts2 j))) ∧
    (execute_tool cfg true true true attempts).outcome = .ok v ∧
    (execute_tool cfg true true true attempts).reconnects = List.range k ∧
    (execute_tool cfg true true true attempts).attemptsMade = k + 1 := by
  have hscen := retry_loop_scenario attempts cfg.max_retries cfg.retry_delay
    k cfg.max_retries 0 none v hk
    (fun j hj => by simpa using hfail j hj)
    (by simpa using hsucc)
    (fun j hj => by omega)
  constructor
  · intro attempts2 connected connect_ok hpath
    rw [execute_tool_runs_loop cfg connected connect_ok attempts2 hpath]
    rw [retry_loop_reconnects attempts2 cfg.max_retries cfg.retry_delay
      cfg.max_retries 0 none]
    rw [List.range_eq_range']
  · rw [execute_tool_runs_loop cfg true true attempts (Or.inl rfl), hscen]
    refine ⟨rfl, ?_, rfl⟩
    rw [List.range_eq_range']

/-- Witness for C2: with `max_retries = 3`, two connection-errored attempts
followed by a success yield a successful call with reconnects after
attempts 0 and 1. -/
theorem execute_tool_reconnect_policy_witness :
    (execute_tool cfgW true true true attW2).outcome = .ok {} ∧
    (execute_tool cfgW true true true attW2).reconnects = [0, 1] := by
  have h := execute_tool_reconnect_policy cfgW attW2 2 {} (by decide)
    (fun j hj => ⟨eConnW, by simp [attW2, hj], rfl⟩) (by decide)
  exact ⟨h.2.1, by rw [h.2.2.1]; decide⟩

/-- C9: for a configured server with no live connection, `execute_tool`
does not fail outright: it behaves exactly as if the connection had already
existed when its own `connect` succeeds, raises `MCPConnectionError` when
the automatic connect fails, and never raises `MCPConnectionError` on the
connect-succeeded path. -/
theorem execute_tool_auto_connect (cfg : MCPServerConfig)
    (attempts : Nat → AttemptOutcome) :
    execute_tool cfg true false true attempts
      = execute_tool cfg true true true attempts ∧
    (execute_tool cfg true false false attempts).outcome
      = .connError ("Cannot connect to server") ∧
    ∀ msg, (execute_tool cfg true false true attempts).outcome
      ≠ .connError msg := by
  refine ⟨by simp [execute_tool], by simp [execute_tool], ?_⟩
  intro msg
  rw [execute_tool_runs_loop cfg false true attempts (Or.inr rfl)]
  exact retry_loop_not_connError attempts cfg.max_retries cfg.retry_delay
    cfg.max_retries 0 none msg

/-- C10: `MCPClient.list_tools` never propagates a failure: on a successful
underlying call it returns the `"tools"` member of the result (defaulting
to the empty list), for an unconfigured server it returns the empty list,
and when every attempt of the underlying call fails it returns the empty
list. -/
theorem list_tools_swallows_failures (cfg : MCPServerConfig)
    (configured connected connect_ok : Bool)
    (attempts : Nat → AttemptOutcome) :
    (∀ v, (execute_tool cfg configured connected connect_ok attempts).outcome = .ok v →
      list_tools cfg configured connected connect_ok attempts = v.tools.getD []) ∧
    (configured = false →
      list_tools cfg configured connected connect_ok attempts = []) ∧
    ((∀ j, j < cfg.max_retries → ∃ e, attempts j = .failure e) →
      list_tools cfg configured connected connect_ok attempts = []) := by
  refine ⟨?_, ?_, ?_⟩
  · intro v hv
    simp [list_tools, hv]
  · intro h
    subst h
    cases connected <;> cases connect_ok <;> simp [list_tools, execute_tool]
  · intro h
    have hnot : ∀ v,
        (execute_tool cfg configured connected connect_ok attempts).outcome
          ≠ .ok v := by
      intro v hv
      have hloop := retry_loop_not_ok_all_fail attempts cfg.max_retries
        cfg.retry_delay cfg.max_retries 0 none v
        (fun j hj => by simpa using h j hj)
      cases configured <;> cases connected <;> cases connect_ok <;>
        simp [execute_tool] at hv <;> exact hloop hv
    cases houtcome : (execute_tool cfg configured connected connect_ok attempts).outcome with
    | ok v => exact absurd houtcome (hnot v)
    | toolError n last => simp [list_tools, houtcome]
    | connError msg => simp [list_tools, houtcome]
    | keyError => simp [list_tools, houtcome]

/-- Witness for C10: a successful listing returns the `"tools"` member; an
unconfigured server and an always-failing server both yield the empty
list. -/
theorem list_tools_swallows_failures_witness :
    list_tools cfgW true true true attSuccW = ["list_chats"] ∧
    list_tools cfgW false false false attSuccW = [] ∧
    list_tools cfgW true true true (fun _ => .failure eToolW) = [] := by
  refine ⟨?_, ?_, ?_⟩
  · exact (list_tools_swallows_failures cfgW true true true attSuccW).1
      { tools := some ["list_chats"] } (by decide)
  · exact (list_tools_swallows_failures cfgW false false false attSuccW).2.1 rfl
  · exact (list_tools_swallows_failures cfgW true true true
      (fun _ => .failure eToolW)).2.2 (fun j _ => ⟨eToolW, rfl⟩)

/-- A handshake whose response carries the matching id and no error member
returns `True`, sends the request followed by the id-less notification, and
marks the client ready. -/
theorem handshake_success (c : MCPStdioClient) (env0 : Envelope)
    (hid0 : env0.id = some ((c.request_id + 1 : Nat) : Int))
    (herr0 : env0.error = none) :
    handshake c (some env0)
      = ⟨true,
         [⟨some (c.request_id + 1), "initialize"⟩,
          ⟨none, "notifications/initialized"⟩],
         ⟨true, c.request_id + 1⟩⟩ := by
  simp [handshake, next_id, hid0, herr0]

/-- C3 counterexample: on an initialized stdio client, a received envelope
whose id (99) matches no outstanding request is not discarded — the caller
fails with `Exception("Invalid tool call response")`, contradicting the
claim that such an envelope is logged and discarded without failing any
caller. -/
theorem call_tool_unmatched_id_counterexample :
    (call_tool ⟨true, 0⟩ ("list_chats") (some ⟨some 99, none, {}⟩)).outcome
      = .invalidResponse := by decide

/-- C3 amended: the stdio clients pair responses with requests by arrival
order, not by id.  `MCPStdioClient.call_tool` reads exactly one response;
if its id differs from the request's id, or no response arrives, the call
fails with `Exception("Invalid tool call response")` instead of discarding
the envelope; and `MCPClient._execute_stdio_request` returns the next
response's `"result"` member without any id check at all. -/
theorem stdio_response_pairing_amended (c : MCPStdioClient) (tool : String) :
    (∀ env : Envelope, c.ready = true →
      env.id ≠ some ((c.request_id + 1 : Nat) : Int) →
      (call_tool c tool (some env)).outcome = .invalidResponse) ∧
    (c.ready = true → (call_tool c tool none).outcome = .invalidResponse) ∧
    (∀ (rid : String) (env : Envelope), env.error = none →
      execute_stdio_request rid (.env env) = .ok env.result) := by
  refine ⟨?_, ?_, ?_⟩
  · intro env hr hid
    push_cast at hid
    simp [call_tool, next_id, hr, hid]
  · intro hr
    simp [call_tool, hr]
  · intro rid env herr
    simp [execute_stdio_request, herr]

/-- Witness for the amended C3: a mismatched id (99 against request id 1)
fails the caller, and `_execute_stdio_request` hands back the result of an
envelope whose id (42) has no relation to the request's uuid. -/
theorem stdio_response_pairing_amended_witness :
    (call_tool ⟨true, 0⟩ ("x") (some ⟨some 99, none, {}⟩)).outcome
      = .invalidResponse ∧
    execute_stdio_request ("u-1") (.env ⟨some 42, none, ⟨some ["t"], ""⟩⟩)
      = .ok ⟨some ["t"], ""⟩ := by
  have h := stdio_response_pairing_amended ⟨true, 0⟩ ("x")
  exact ⟨h.1 ⟨some 99, none, {}⟩ rfl (by decide),
         h.2.2 ("u-1") ⟨some 42, none, ⟨some ["t"], ""⟩⟩ rfl⟩

/-- C4: before the handshake has reached the ready state, `call_tool` and
`list_tools` fail immediately with the precondition error
`RuntimeError("MCP client not initialized")`, send nothing, and leave the
state unchanged; after a successful handshake (response received with the
matching id and no error member, notification sent) the readiness flag is
set and the same call succeeds. -/
theorem stdio_handshake_gate (c : MCPStdioClient) (tool : String)
    (read : Option Envelope) (env0 : Envelope)
    (hnr : c.ready = false)
    (hid0 : env0.id = some ((c.request_id + 1 : Nat) : Int))
    (herr0 : env0.error = none) :
    call_tool c tool read = ⟨.notReady, [], c⟩ ∧
    stdio_list_tools c read = ⟨.notReady, [], c⟩ ∧
    (handshake c (some env0)).ok = true ∧
    (handshake c (some env0)).state.ready = true ∧
    (∀ env : Envelope,
      env.id = some (((handshake c (some env0)).state.request_id + 1 : Nat) : Int) →
      env.error = none →
      (call_tool (handshake c (some env0)).state tool (some env)).outcome
        = .ok env.result) := by
  have hh := handshake_success c env0 hid0 herr0
  refine ⟨by simp [call_tool, hnr], by simp [stdio_list_tools, hnr],
    by rw [hh], by rw [hh], ?_⟩
  intro env hid herr
  rw [hh] at hid ⊢
  simp [call_tool, next_id, hid, herr]

/-- Witness for C4: on a fresh client a call fails with the precondition
error and sends nothing; after a successful handshake the same call
succeeds. -/
theorem stdio_handshake_gate_witness :
    call_tool stdioStart ("list_chats") (some ⟨some 1, none, {}⟩)
      = ⟨.notReady, [], stdioStart⟩ ∧
    (handshake stdioStart (some ⟨some 1, none, {}⟩)).state.ready = true ∧
    (call_tool (handshake stdioStart (some ⟨some 1, none, {}⟩)).state
        ("list_chats") (some ⟨some 2, none, {}⟩)).outcome = .ok {} := by
  have h := stdio_handshake_gate stdioStart ("list_chats")
    (some ⟨some 1, none, ({} : RpcPayload)⟩) ⟨some 1, none, {}⟩ rfl (by decide) rfl
  exact ⟨h.1, h.2.2.2.1, h.2.2.2.2 ⟨some 2, none, {}⟩ (by decide) rfl⟩

/-- C8: over the lifetime of one connection, the request ids handed out by
`_next_id` on a fresh client form the sequence `1, 2, …, n`: the first id
is 1 and the ids are strictly increasing (pairwise, every later id is
strictly greater than every earlier one); moreover each request sent by
`call_tool` carries the freshly drawn id `request_id + 1`. -/
theorem stdio_ids_strictly_increasing (n : Nat) :
    assigned_ids stdioStart n = List.range' 1 n ∧
    List.Pairwise (· < ·) (assigned_ids stdioStart n) ∧
    (0 < n → (assigned_ids stdioStart n).head? = some 1) ∧
    (∀ (c : MCPStdioClient) (tool : String) (read : Option Envelope),
      c.ready = true →
      (call_tool c tool read).sent.map SentMsg.id = [some (c.request_id + 1)] ∧
      (call_tool c tool read).state.request_id = c.request_id + 1) := by
  have gen : ∀ (m : Nat) (c : MCPStdioClient),
      assigned_ids c m = List.range' (c.request_id + 1) m := by
    intro m
    induction m with
    | zero => intro c; rfl
    | succ mm ih =>
      intro c
      rw [range'_succ_left]
      simp [assigned_ids, next_id, ih]
  have h0 : assigned_ids stdioStart n = List.range' 1 n := gen n stdioStart
  refine ⟨h0, ?_, ?_, ?_⟩
  · rw [h0]
    exact List.pairwise_lt_range' 1 n
  · intro hn
    rw [h0]
    obtain ⟨m, rfl⟩ : ∃ m, n = m + 1 := ⟨n - 1, by omega⟩
    rfl
  · intro c tool read hr
    cases read with
    | none => simp [call_tool, next_id, hr]
    | some env =>
      by_cases hid : env.id = some ((c.request_id + 1 : Nat) : Int)
      · cases herr : env.error <;> simp [call_tool, next_id, hr, hid, herr]
      · push_cast at hid
        simp [call_tool, next_id, hr, hid]

/-- Witness for C8: the first three assigned ids are exactly `[1, 2, 3]`,
starting at 1. -/
theorem stdio_ids_strictly_increasing_witness :
    assigned_ids stdioStart 3 = [1, 2, 3] ∧
    (assigned_ids stdioStart 3).head? = some 1 ∧
    (call_tool ⟨true, 0⟩ ("t") none).sent.map SentMsg.id = [some 1] := by
  have h := stdio_ids_strictly_increasing 3
  exact ⟨by rw [h.1]; decide, h.2.2.1 (by decide),
    (h.2.2.2 ⟨true, 0⟩ ("t") none rfl).1⟩

/-- `WhatsAppRateLimits` of `whatsapp_mcp_client.py`, with its defaults. -/
structure WhatsAppRateLimits where
  messages_per_minute : Nat := 60
  chats_per_minute : Nat := 30
  requests_per_second : Nat := 2
  burst_limit : Nat := 10
  cooldown_period : Nat := 300
deriving DecidableEq

/-- The `max_per_minute` selection of `_enforce_rate_limit`
(`whatsapp_mcp_client.py`, lines 473-479): per-minute ceiling by operation
type, defaulting to 30. -/
def max_per_minute (rl : WhatsAppRateLimits) (operation_type : String) : Nat :=
  if operation_type = "messages" then rl.messages_per_minute
  else if operation_type = "chats" then rl.chats_per_minute
  else 30

/-- Effect of one `_enforce_rate_limit` call: the durations slept in the
per-minute and per-second checks (0 when the check passed without
sleeping) and the timestamp list stored afterwards. -/
structure RateLimitStep where
  minuteSleep : ℤ
  secondSleep : ℤ
  newTimestamps : List ℤ
deriving DecidableEq

/-- `WhatsAppMCPClient._enforce_rate_limit` (`whatsapp_mcp_client.py`,
lines 457-500), one admission under the lock.  `tss` is
`self._request_timestamps` on entry; `now` the value of `time.time()`.
The code prunes entries with `now - ts < 60` failing, sleeps
`60 - (now - pruned[0])` when the pruned length has reached the per-minute
ceiling, independently sleeps `1 - (now - recent[0])` when the one-second
sub-window has reached `requests_per_second`, and only then appends `now`
(the pre-sleep clock value) to the stored list.  `pruned[0]` is modelled by
`headD` with an arbitrary default: the code would raise `IndexError` there,
which is reachable only with a ceiling of `0`; all theorems below assume
positive ceilings. -/
def enforce_rate_limit (rl : WhatsAppRateLimits) (operation_type : String)
    (tss : List ℤ) (now : ℤ) : RateLimitStep :=
  let pruned := tss.filter (fun ts => decide (now - ts < 60))
  let m := max_per_minute rl operation_type
  let minuteSleep :=
    if m ≤ pruned.length then
      if 0 < 60 - (now - pruned.headD 0) then 60 - (now - pruned.headD 0) else 0
    else 0
  let recent := pruned.filter (fun ts => decide (now - ts < 1))
  let secondSleep :=
    if rl.requests_per_second ≤ recent.length then
      if 0 < 1 - (now - recent.headD 0) then 1 - (now - recent.headD 0) else 0
    else 0
  ⟨minuteSleep, secondSleep, pruned ++ [now]⟩

/-- The states of `self._request_timestamps` reachable by a sequence of
admissions, paired with the earliest wall-clock instant at which the next
admission's `time.time()` call can happen: each admission must observe a
clock reading no earlier than the previous reading plus the durations the
previous admission slept. -/
inductive RLReach (rl : WhatsAppRateLimits) (operation_type : String) :
    List ℤ → ℤ → Prop where
  | start (t : ℤ) : RLReach rl operation_type [] t
  | step (tss : List ℤ) (t now : ℤ) (h : t ≤ now)
      (prev : RLReach rl operation_type tss t) :
      RLReach rl operation_type
        (enforce_rate_limit rl operation_type tss now).newTimestamps
        (now + (enforce_rate_limit rl operation_type tss now).minuteSleep
             + (enforce_rate_limit rl operation_type tss now).secondSleep)

/-- The stored list after an admission is the pruned list with the
admission timestamp appended. -/
theorem enforce_rate_limit_newTimestamps (rl : WhatsAppRateLimits)
    (operation_type : String) (tss : List ℤ) (now : ℤ) :
    (enforce_rate_limit rl operation_type tss now).newTimestamps
      = tss.filter (fun ts => decide (now - ts < 60)) ++ [now] := rfl

/-- The per-minute sleep is never negative. -/
theorem enforce_rate_limit_minuteSleep_nonneg (rl : WhatsAppRateLimits)
    (operation_type : String) (tss : List ℤ) (now : ℤ) :
    0 ≤ (enforce_rate_limit rl operation_type tss now).minuteSleep := by
  dsimp only [enforce_rate_limit]
  split
  · split <;> omega
  · omega

/-- The per-second sleep is never negative. -/
theorem enforce_rate_limit_secondSleep_nonneg (rl : WhatsAppRateLimits)
    (operation_type : String) (tss : List ℤ) (now : ℤ) :
    0 ≤ (enforce_rate_limit rl operation_type tss now).secondSleep := by
  dsimp only [enforce_rate_limit]
  split
  · split <;> omega
  · omega

/-- When the pruned window has reached the per-minute ceiling, the clock
value plus the per-minute sleep reaches the instant at which the oldest
pruned timestamp leaves the 60-second window. -/
theorem minuteSleep_lower (rl : WhatsAppRateLimits) (operation_type : String)
    (tss : List ℤ) (now : ℤ)
    (h : max_per_minute rl operation_type
      ≤ (tss.filter (fun ts => decide (now - ts < 60))).length) :
    (tss.filter (fun ts => decide (now - ts < 60))).headD 0 + 60
      ≤ now + (enforce_rate_limit rl operation_type tss now).minuteSleep := by
  dsimp only [enforce_rate_limit]
  rw [if_pos h]
  split <;> omega


/-- Test fixture: rate limits with a per-minute message ceiling of 1 and
the remaining defaults. -/
def rlOne : WhatsAppRateLimits := { messages_per_minute := 1 }

/-- C5: for every call category and admission request, the rate limiter
stores, after the admission, exactly the window pruned of timestamps aged
60 seconds or more with the admission timestamp appended last (so the
timestamp is recorded only after both checks, which never see it); when the
pruned window has reached the per-minute ceiling the admission completes no
earlier than the instant the oldest pruned timestamp exits the 60-second
window; and the per-second burst check is applied independently — each
sleep depends only on its own ceiling. -/
theorem enforce_rate_limit_admission (rl : WhatsAppRateLimits)
    (operation_type : String) (tss : List ℤ) (now : ℤ)
    (_hm : 0 < max_per_minute rl operation_type) :
    (enforce_rate_limit rl operation_type tss now).newTimestamps
      = tss.filter (fun ts => decide (now - ts < 60)) ++ [now] ∧
    (max_per_minute rl operation_type
        ≤ (tss.filter (fun ts => decide (now - ts < 60))).length →
      (tss.filter (fun ts => decide (now - ts < 60))).headD 0 + 60
        ≤ now + (enforce_rate_limit rl operation_type tss now).minuteSleep
              + (enforce_rate_limit rl operation_type tss now).secondSleep) ∧
    (∀ rl2 : WhatsAppRateLimits,
      rl2.requests_per_second = rl.requests_per_second →
      (enforce_rate_limit rl2 operation_type tss now).secondSleep
        = (enforce_rate_limit rl operation_type tss now).secondSleep) ∧
    (∀ rl2 : WhatsAppRateLimits,
      max_per_minute rl2 operation_type = max_per_minute rl operation_type →
      (enforce_rate_limit rl2 operation_type tss now).minuteSleep
        = (enforce_rate_limit rl operation_type tss now).minuteSleep) := by
  refine ⟨enforce_rate_limit_newTimestamps rl operation_type tss now, ?_, ?_, ?_⟩
  · intro hlen
    have h1 := minuteSleep_lower rl operation_type tss now hlen
    have h2 := enforce_rate_limit_secondSleep_nonneg rl operation_type tss now
    omega
  · intro rl2 h
    dsimp only [enforce_rate_limit]
    rw [h]
  · intro rl2 h
    dsimp only [enforce_rate_limit]
    rw [h]

/-- Witness for C5: with a ceiling of 1 and one fresh timestamp in the
window, the second admission at time 30 stores `[0, 30]` and completes no
earlier than time 60, when the first timestamp leaves the window. -/
theorem enforce_rate_limit_admission_witness :
    (enforce_rate_limit rlOne ("messages") [0] 30).newTimestamps = [0, 30] ∧
    (0 : ℤ) + 60 ≤ 30 + (enforce_rate_limit rlOne ("messages") [0] 30).minuteSleep
      + (enforce_rate_limit rlOne ("messages") [0] 30).secondSleep := by
  have h := enforce_rate_limit_admission rlOne ("messages") [0] 30 (by decide)
  refine ⟨by rw [h.1]; decide, ?_⟩
  have h2 := h.2.1 (by decide)
  have h3 : ([(0 : ℤ)].filter (fun ts => decide ((30 : ℤ) - ts < 60))).headD 0
      = 0 := by decide
  rw [h3] at h2
  exact h2

/-- C6 counterexample: with a per-minute ceiling of 1, an admission at time
0 (which sleeps nothing) followed by an admission at time 30 leaves the
stored window with 2 entries — more than the ceiling.  The pre-sleep
timestamp is appended without re-pruning, so the stored window length can
exceed the ceiling after a successful admission. -/
theorem rate_limit_window_counterexample :
    enforce_rate_limit rlOne ("messages") [] 0 = ⟨0, 0, [0]⟩ ∧
    ((enforce_rate_limit rlOne ("messages")
        ((enforce_rate_limit rlOne ("messages") [] 0).newTimestamps)
        30).newTimestamps).length = 2 ∧
    max_per_minute rlOne ("messages") = 1 := by decide

/-- Auxiliary invariant for the amended C6: every reachable window has at
most `ceiling + 1` entries, and a full window's oldest entry ages out of
the 60-second horizon before the next admission can read the clock. -/
theorem rate_limit_window_bound_aux (rl : WhatsAppRateLimits)
    (operation_type : String) (hm : 1 ≤ max_per_minute rl operation_type)
    (tss : List ℤ) (t : ℤ) (h : RLReach rl operation_type tss t) :
    tss.length ≤ max_per_minute rl operation_type + 1 ∧
    (tss.length = max_per_minute rl operation_type + 1 →
      tss.headD 0 + 60 ≤ t) := by
  induction h with
  | start t =>
    refine ⟨by simp, ?_⟩
    intro habs
    simp at habs
  | step tss t now hle prev ih =>
    have hpruned_le : (tss.filter (fun ts => decide (now - ts < 60))).length
        ≤ max_per_minute rl operation_type := by
      rcases Nat.lt_or_ge tss.length (max_per_minute rl operation_type + 1) with hl | hl
      · have hf := List.length_filter_le (fun ts => decide (now - ts < 60)) tss
        omega
      · have hlen : tss.length = max_per_minute rl operation_type + 1 := by
          have := ih.1
          omega
        have hhead := ih.2 hlen
        cases tss with
        | nil => simp at hlen
        | cons h0 rest =>
          have hold : ¬ (now - h0 < 60) := by
            simp only [List.headD_cons] at hhead
            omega
          have hdrop : (h0 :: rest).filter (fun ts => decide (now - ts < 60))
              = rest.filter (fun ts => decide (now - ts < 60)) := by
            simp [hold]
          rw [hdrop]
          have hf := List.length_filter_le (fun ts => decide (now - ts < 60)) rest
          simp only [List.length_cons] at hlen
          omega
    constructor
    · rw [enforce_rate_limit_newTimestamps, List.length_append, List.length_singleton]
      omega
    · intro hlen
      rw [enforce_rate_limit_newTimestamps, List.length_append,
        List.length_singleton] at hlen
      have hplen : (tss.filter (fun ts => decide (now - ts < 60))).length
          = max_per_minute rl operation_type := by omega
      have hlow := minuteSleep_lower rl operation_type tss now (by omega)
      have hs2 := enforce_rate_limit_secondSleep_nonneg rl operation_type tss now
      rw [enforce_rate_limit_newTimestamps]
      cases hp : tss.filter (fun ts => decide (now - ts < 60)) with
      | nil =>
        rw [hp] at hplen
        simp at hplen
        omega
      | cons p ps =>
        rw [hp] at hlow
        simp only [List.headD_cons] at hlow
        simp only [List.cons_append, List.headD_cons]
        omega

/-- C6 amended: after each successful admission the stored rate-limit
window has length at most the per-minute ceiling plus one — not the
ceiling itself, because the pre-sleep admission timestamp is appended
without re-pruning after the sleep.  The bound holds for every positive
ceiling along every admission sequence in which each admission's clock
reading is at least the previous reading plus the durations the previous
admission slept. -/
theorem rate_limit_window_bound (rl : WhatsAppRateLimits)
    (operation_type : String) (tss : List ℤ) (t : ℤ)
    (hm : 1 ≤ max_per_minute rl operation_type)
    (h : RLReach rl operation_type tss t) :
    tss.length ≤ max_per_minute rl operation_type + 1 :=
  (rate_limit_window_bound_aux rl operation_type hm tss t h).1

/-- Witness for the amended C6: the window reached by one admission on the
ceiling-1 limits has 1 ≤ 2 entries. -/
theorem rate_limit_window_bound_witness :
    ((enforce_rate_limit rlOne ("messages") [] 0).newTimestamps).length
      ≤ max_per_minute rlOne ("messages") + 1 :=
  rate_limit_window_bound rlOne ("messages") _ _ (by decide)
    (RLReach.step [] 0 0 (le_refl 0) (RLReach.start 0))

/-- Looking a key up after deleting it yields nothing. -/
theorem getKey_delKey (k : String) :
    ∀ (l : List (String × ConnInfo)), getKey k (delKey k l) = none := by
  intro l
  induction l with
  | nil => rfl
  | cons p rest ih =>
    by_cases h : p.1 = k
    · simpa [delKey, List.filter_cons, h] using ih
    · simpa [delKey, List.filter_cons, h, getKey] using ih

/-- Looking a key up right after storing it yields the stored value. -/
theorem getKey_setKey_self {α : Type} (k : String) (v : α) :
    ∀ (l : List (String × α)), getKey k (setKey k v l) = some v := by
  intro l
  induction l with
  | nil => simp [setKey, getKey]
  | cons p rest ih =>
    cases p with
    | mk pk pv =>
      by_cases h : pk = k
      · simp [setKey, getKey, h]
      · simp [setKey, getKey, h, ih]

/-- Clearing the liveness flag of the session stored under a key commutes
with lookup. -/
theorem getKey_clearSession (k : String) :
    ∀ (l : List (String × MCPSession)),
      getKey k (clearSession k l)
        = (getKey k l).map (fun s => { s with is_active := false }) := by
  intro l
  induction l with
  | nil => rfl
  | cons p rest ih =>
    cases p with
    | mk pk pv =>
      by_cases h : pk = k
      · simp [clearSession, getKey, h]
      · simp [clearSession, getKey, h, ih]

/-- Clearing the liveness flags twice is the same as clearing them once. -/
theorem clearSession_idem (k : String) :
    ∀ (l : List (String × MCPSession)),
      clearSession k (clearSession k l) = clearSession k l := by
  intro l
  induction l with
  | nil => rfl
  | cons p rest ih =>
    cases p with
    | mk pk pv =>
      by_cases h : pk = k
      · simp [clearSession, h, ih]
      · simp [clearSession, h, ih]

/-- `_close_connection` is idempotent on the client state. -/
theorem close_connection_idem (st : MCPClientState) (k : String) :
    close_connection (close_connection st k) k = close_connection st k := by
  obtain ⟨srv, ses, con, ht⟩ := st
  simp only [close_connection]
  congr 1
  · exact clearSession_idem k ses
  · simp [delKey, List.filter_filter]
  · simp [List.filter_filter]

/-- C7: a successful connect followed immediately by a close leaves no
connection entry for the server's name and no live session: the session
record is retained with its `is_active` flag cleared rather than deleted.
`_close_connection` is modelled as a total state transformer (its body
swallows every exception, so it never raises) and is idempotent. -/
theorem connect_close_lifecycle (st : MCPClientState) (cfg : MCPServerConfig)
    (sid : Nat) :
    getKey cfg.name
        (close_connection (connect_success st cfg sid) cfg.name).connections
      = none ∧
    getKey cfg.name
        (close_connection (connect_success st cfg sid) cfg.name).sessions
      = some ⟨sid, cfg.name, false⟩ ∧
    close_connection (close_connection (connect_success st cfg sid) cfg.name)
        cfg.name
      = close_connection (connect_success st cfg sid) cfg.name := by
  refine ⟨?_, ?_, close_connection_idem _ _⟩
  · simp [close_connection, connect_success, getKey_delKey]
  · simp [close_connection, connect_success, getKey_clearSession,
      getKey_setKey_self]
